import Mathlib

/-!
Verification of the job-routing, artifact-versioning and caching subsystem of
the `automl` repository.  Pure and stateful Python functions from the sources
(`src/train.py`, `src/utils/huggingface/train_huggingface.py`,
`src/kiliautoml/utils/memoization.py`,
`src/kiliautoml/mixins/_hugging_face_mixin.py`) are embedded shallowly:
filesystem state is an explicit list of existing file paths, exceptions become
`Except`, and side effects become event traces.  Helper modules that the
repository imports but whose files are not part of the sources here
(`utils/constants.py`, `utils/helpers.py`, `kiliautoml/utils/path.py`) are
modelled from the specification, each marked `Modelled from the spec:` in its
doc comment.
-/

namespace AutoML

/-- Modelled from the spec: enumeration values of `utils/constants.py`
(the constants module is not among the sources).  Each enum member is an
opaque distinct string; the routing logic only compares them for equality. -/
def ContentInput.Radio : String := "radio"

/-- Modelled from the spec: `InputType.Text` of `utils/constants.py`. -/
def InputType.Text : String := "text"

/-- Modelled from the spec: `InputType.Image` of `utils/constants.py`. -/
def InputType.Image : String := "image"

/-- Modelled from the spec: `MLTask.Classification` of `utils/constants.py`. -/
def MLTask.Classification : String := "classification"

/-- Modelled from the spec: `MLTask.NamedEntitiesRecognition` of
`utils/constants.py`. -/
def MLTask.NamedEntitiesRecognition : String := "named-entities-recognition"

/-- Modelled from the spec: `MLTask.ObjectDetection` of `utils/constants.py`. -/
def MLTask.ObjectDetection : String := "object-detection"

/-- Modelled from the spec: `Tool.Rectangle` of `utils/constants.py`. -/
def Tool.Rectangle : String := "rectangle"

/-- `ModelFramework.PyTorch`; the literal "pytorch" appears verbatim in
`src/kiliautoml/utils/memoization.py` and as a path segment check in
`src/kiliautoml/mixins/_hugging_face_mixin.py`. -/
def ModelFramework.PyTorch : String := "pytorch"

/-- `ModelFramework.Tensorflow`; compared against path segments in
`src/kiliautoml/mixins/_hugging_face_mixin.py`. -/
def ModelFramework.Tensorflow : String := "tensorflow"

/-- `ModelRepository.HuggingFace`; the literal "huggingface" appears verbatim
as `HuggingFaceMixin.model_repository` in
`src/kiliautoml/mixins/_hugging_face_mixin.py`. -/
def ModelRepository.HuggingFace : String := "huggingface"

/-- Modelled from the spec: `ModelRepository.Ultralytics`
(`model_repository` enum: huggingface/ultralytics). -/
def ModelRepository.Ultralytics : String := "ultralytics"

/-- Modelled from the spec: `ModelName.BertBaseMultilingualCased`. -/
def ModelName.BertBaseMultilingualCased : String := "bert-base-multilingual-cased"

/-- Modelled from the spec: `ModelName.DistilbertBaseCased`. -/
def ModelName.DistilbertBaseCased : String := "distilbert-base-cased"

/-- Modelled from the spec: `ModelName.YoloV5`. -/
def ModelName.YoloV5 : String := "yolov5"

/-- Modelled from the spec: the known model repositories, i.e. the result of
`get_args(ModelRepositoryT)` in `src/kiliautoml/utils/memoization.py` —
"model_repository (enum: huggingface/ultralytics)". -/
def knownModelRepositories : List String :=
  [ModelRepository.HuggingFace, ModelRepository.Ultralytics]

/-- The error raised by the Default Resolver on an invalid explicit choice:
`UnsupportedChoice(field_name, user_value, allowed_values)`. -/
inductive ResolverError where
  | unsupportedChoice (fieldName : String) (userValue : String)
      (allowed : List String) : ResolverError
  deriving DecidableEq, Repr

/-- Modelled from the spec: the Default Resolver `set_default` of
`utils/helpers.py` (the helpers module is not among the sources; `src/train.py`
imports and calls it).  "If `user_value` is unset (null/empty), returns
`fallback` ...  If `user_value` is set, returns it unchanged only if it is a
member of `allowed_values`; otherwise fails with
`UnsupportedChoice(field_name, user_value, allowed_values)`."  Unset is a
`None` or empty-string value. -/
def set_default (userValue : Option String) (fallback : String)
    (fieldName : String) (allowed : List String) : Except ResolverError String :=
  match userValue with
  | none => Except.ok fallback
  | some v =>
      if v = "" then Except.ok fallback
      else if v ∈ allowed then Except.ok v
      else Except.error (ResolverError.unsupportedChoice fieldName v allowed)

/-- C3: the default resolver returns the fallback whenever the user value is
unset (null or empty); a set value is returned unchanged exactly when it
belongs to the allowed list and otherwise the resolver fails with
`UnsupportedChoice(field_name, user_value, allowed_values)`; in particular
resolving "tensorflow" against the allow-list ["pytorch"] fails.  The
resolver is a pure function: its result is determined by its arguments. -/
theorem set_default_spec :
    ∀ (fallback fieldName : String) (allowed : List String),
      (set_default none fallback fieldName allowed = Except.ok fallback) ∧
      (set_default (some "") fallback fieldName allowed = Except.ok fallback) ∧
      (∀ v : String, v ≠ "" →
        ((set_default (some v) fallback fieldName allowed = Except.ok v ↔
          v ∈ allowed) ∧
         (v ∉ allowed →
          set_default (some v) fallback fieldName allowed =
            Except.error (ResolverError.unsupportedChoice fieldName v allowed)))) ∧
      (set_default (some "tensorflow") "pytorch" "model_framework" ["pytorch"] =
        Except.error (ResolverError.unsupportedChoice "model_framework"
          "tensorflow" ["pytorch"])) := by
  intro fallback fieldName allowed
  refine ⟨rfl, rfl, ?_, by simp [set_default]⟩
  intro v hv
  constructor
  · constructor
    · intro h
      by_contra hmem
      simp [set_default, hv, hmem] at h
    · intro hmem
      simp [set_default, hv, hmem]
  · intro hmem
    simp [set_default, hv, hmem]

/-- Witness for C3: the theorem applied at a concrete input, with the
hypothesis `"tensorflow" ≠ ""` discharged concretely. -/
theorem set_default_spec_witness :
    ("tensorflow" : String) ≠ "" ∧
      (set_default (some "tensorflow") "pytorch" "model_framework" ["pytorch"] =
          Except.ok "tensorflow" ↔ ("tensorflow" : String) ∈ ["pytorch"]) :=
  ⟨by decide,
   ((set_default_spec "pytorch" "model_framework" ["pytorch"]).2.2.1
      "tensorflow" (by decide)).1⟩

/-- One labeling job's schema as read by the dispatcher loop of
`src/train.py` (`main`): `content_input = job.get("content", {}).get("input")`,
`ml_task = job.get("mlTask")`, `tools = job.get("tools")`.  Per the data
model, `tools` is the job's set of tool enums (a list of strings here). -/
structure JobT where
  contentInput : Option String
  mlTask : Option String
  tools : List String
  deriving DecidableEq, Repr

/-- The three trainer adapters the dispatcher of `src/train.py` can route a
job to. -/
inductive Adapter where
  | textClassification
  | ner
  | boundingBox
  deriving DecidableEq, Repr

/-- Observable side effects of one iteration of the dispatcher loop of
`src/train.py` (`main`): fetching labeled assets, invoking a trainer adapter
(recording which one and the `clear_dataset_cache` flag passed to it), and
running the memoization-layer invalidation `clear_automl_cache` of
`src/kiliautoml/utils/memoization.py`. -/
inductive Event where
  | getAssets
  | invokeAdapter (a : Adapter) (clearDatasetCache : Bool)
  | clearCache
  deriving DecidableEq, Repr

/-- One iteration of the dispatcher loop of `src/train.py` (`main`,
lines 226-288), for one `(job_name, job)` item: `training_loss` starts as
`None`; the if/elif chain routes radio/text/classification to the
text-classification adapter (after fetching assets), radio/text/NER to the
NER adapter (after fetching assets), and radio/image/object-detection with
rectangle among the tools to the bounding-box adapter (asset retrieval
delegated to the adapter); any other combination leaves the loss `None` and
performs nothing ("not implemented yet").  The adapter interpretation
`adapters` is a parameter so the result is `adapters a` for the selected
adapter `a`; the returned trace lists the side effects in order. -/
def processJob {α : Type} (adapters : Adapter → α) (clearDatasetCache : Bool)
    (inputType : String) (job : JobT) : Option α × List Event :=
  if job.contentInput = some ContentInput.Radio ∧ inputType = InputType.Text ∧
      job.mlTask = some MLTask.Classification then
    (some (adapters Adapter.textClassification),
     [Event.getAssets, Event.invokeAdapter Adapter.textClassification clearDatasetCache])
  else if job.contentInput = some ContentInput.Radio ∧ inputType = InputType.Text ∧
      job.mlTask = some MLTask.NamedEntitiesRecognition then
    (some (adapters Adapter.ner),
     [Event.getAssets, Event.invokeAdapter Adapter.ner clearDatasetCache])
  else if job.contentInput = some ContentInput.Radio ∧ inputType = InputType.Image ∧
      job.mlTask = some MLTask.ObjectDetection ∧ Tool.Rectangle ∈ job.tools then
    (some (adapters Adapter.boundingBox),
     [Event.invokeAdapter Adapter.boundingBox clearDatasetCache])
  else
    (none, [])

/-- The adapter the dispatcher selects for a job, if any: `processJob` with
the identity interpretation of adapters. -/
def selectedAdapter (inputType : String) (job : JobT) : Option Adapter :=
  (processJob (fun a => a) false inputType job).1

/-- The dispatcher loop of `src/train.py` (`main`): processes the jobs in
order, appending `[job_name, training_loss]` to the accumulated report. -/
def mainLoop {α : Type} (adapters : Adapter → α) (clearDatasetCache : Bool)
    (inputType : String) : List (String × JobT) → List (String × Option α)
  | [] => []
  | (name, job) :: rest =>
      (name, (processJob adapters clearDatasetCache inputType job).1) ::
        mainLoop adapters clearDatasetCache inputType rest

/-- C1: for every job descriptor the dispatcher selects exactly one adapter
when `(content_input, input_type, ml_task, tools)` matches a row of the
decision table — radio/text/classification gives the text-classification
adapter, radio/text/NER gives the NER adapter, radio/image/object-detection
with rectangle among the tools gives the bounding-box adapter — and for every
combination not in the table it selects no adapter, so the loop records a
null training loss for that job (the result is `none` for every adapter
interpretation, i.e. no adapter is invoked) and the embedding is total (no
exception is raised). -/
theorem dispatcher_decision_table :
    ∀ {α : Type} (adapters : Adapter → α) (clearDatasetCache : Bool)
      (inputType : String) (job : JobT) (name : String)
      (rest : List (String × JobT)),
      ((processJob adapters clearDatasetCache inputType job).1 =
        Option.map adapters (selectedAdapter inputType job)) ∧
      (selectedAdapter inputType job = some Adapter.textClassification ↔
        (job.contentInput = some ContentInput.Radio ∧ inputType = InputType.Text ∧
          job.mlTask = some MLTask.Classification)) ∧
      (selectedAdapter inputType job = some Adapter.ner ↔
        (job.contentInput = some ContentInput.Radio ∧ inputType = InputType.Text ∧
          job.mlTask = some MLTask.NamedEntitiesRecognition)) ∧
      (selectedAdapter inputType job = some Adapter.boundingBox ↔
        (job.contentInput = some ContentInput.Radio ∧ inputType = InputType.Image ∧
          job.mlTask = some MLTask.ObjectDetection ∧ Tool.Rectangle ∈ job.tools)) ∧
      (selectedAdapter inputType job = none ↔
        ¬((job.contentInput = some ContentInput.Radio ∧ inputType = InputType.Text ∧
            job.mlTask = some MLTask.Classification) ∨
          (job.contentInput = some ContentInput.Radio ∧ inputType = InputType.Text ∧
            job.mlTask = some MLTask.NamedEntitiesRecognition) ∨
          (job.contentInput = some ContentInput.Radio ∧ inputType = InputType.Image ∧
            job.mlTask = some MLTask.ObjectDetection ∧ Tool.Rectangle ∈ job.tools))) ∧
      (mainLoop adapters clearDatasetCache inputType ((name, job) :: rest) =
        (name, (processJob adapters clearDatasetCache inputType job).1) ::
          mainLoop adapters clearDatasetCache inputType rest) := by
  intro α adapters clearDatasetCache inputType job name rest
  refine ⟨?_, ?_, ?_, ?_, ?_, rfl⟩ <;>
    · unfold selectedAdapter processJob
      split_ifs with h1 h2 h3 <;>
        simp_all [MLTask.Classification, MLTask.NamedEntitiesRecognition,
          MLTask.ObjectDetection, InputType.Text, InputType.Image]

/-- C4 counterexample: a concrete dispatched job (radio/text/classification)
with `clear_dataset_cache` set.  The dispatcher's trace for it is exactly
asset fetching followed by the adapter invocation: the adapter is invoked,
yet no `clear_automl_cache` invalidation event occurs at all — in particular
none occurs before the invocation, refuting the claim at this input. -/
theorem dispatcher_no_invalidation_counterexample :
    (processJob (fun a => a) true InputType.Text
        ⟨some ContentInput.Radio, some MLTask.Classification, []⟩).2 =
      [Event.getAssets, Event.invokeAdapter Adapter.textClassification true] ∧
    Event.clearCache ∉ (processJob (fun a => a) true InputType.Text
        ⟨some ContentInput.Radio, some MLTask.Classification, []⟩).2 := by
  constructor
  · simp [processJob]
  · simp [processJob]

/-- C4 amended: for every run of the dispatcher, the memoization-layer cache
invalidation (`clear_automl_cache`) is never executed by the dispatcher loop;
when `clear_dataset_cache` is set the flag is instead forwarded unchanged to
whichever adapter is invoked, which performs its own dataset-file deletion. -/
theorem dispatcher_never_invalidates :
    ∀ {α : Type} (adapters : Adapter → α) (clearDatasetCache : Bool)
      (inputType : String) (job : JobT),
      Event.clearCache ∉ (processJob adapters clearDatasetCache inputType job).2 ∧
      (∀ (a : Adapter) (c : Bool),
        Event.invokeAdapter a c ∈
          (processJob adapters clearDatasetCache inputType job).2 →
        c = clearDatasetCache) := by
  intro α adapters clearDatasetCache inputType job
  constructor
  · unfold processJob
    split_ifs <;> simp
  · intro a c hmem
    unfold processJob at hmem
    split_ifs at hmem <;> simp_all

/-- Witness for C4's amended theorem: at a concrete classification job with
the flag set, the adapter-invocation event is in the trace and the theorem
yields that its recorded flag is the given one. -/
theorem dispatcher_never_invalidates_witness :
    Event.invokeAdapter Adapter.textClassification true ∈
      (processJob (fun a => a) true InputType.Text
        ⟨some ContentInput.Radio, some MLTask.Classification, []⟩).2 ∧
    (true = true) :=
  ⟨by simp [processJob],
   (dispatcher_never_invalidates (fun a => a) true InputType.Text
      ⟨some ContentInput.Radio, some MLTask.Classification, []⟩).2
     Adapter.textClassification true (by simp [processJob])⟩

/-! ### Filesystem model

A filesystem state is the list of existing file paths.  A directory exists
when some file lies at or below it; `shutil.rmtree` removes every file at or
below a path; `os.path.exists` tests existence. -/

/-- `hitBy p f` holds when file `f` is the path `p` itself or lies strictly
below the directory `p`. -/
def hitBy (p f : String) : Bool := f == p || String.isPrefixOf (p ++ "/") f

/-- `os.path.exists`: some file lies at or below `p`. -/
def pathExists (fs : List String) (p : String) : Bool := fs.any (hitBy p)

/-- `shutil.rmtree`: recursively removes everything at or below `p`. -/
def rmtree (fs : List String) (p : String) : List String :=
  fs.filter (fun f => !(hitBy p f))

/-- The guarded deletion of `src/kiliautoml/utils/memoization.py`
(`clear_automl_cache`, lines 80-82): `if os.path.exists(cache_path):
shutil.rmtree(cache_path)`. -/
def rmtreeIfExists (fs : List String) (p : String) : List String :=
  if pathExists fs p then rmtree fs p else fs

/-- Modelled from the spec: `Path.cache` of `kiliautoml/utils/path.py` (not
among the sources) — "Cache storage location =
`<cache_root>/<project_id>/<operation_category>/`". -/
def Path.cache (home project_id sub_dir : String) : String :=
  home ++ "/" ++ project_id ++ "/" ++ sub_dir

/-- Modelled from the spec: `Path.model_repository` of
`kiliautoml/utils/path.py` (not among the sources) — the filesystem layout is
`<root>/<model_repository>/<project_id>/<job_name>/...`. -/
def Path.model_repository (root_dir project_id job_name model_repository : String) :
    String :=
  root_dir ++ "/" ++ model_repository ++ "/" ++ project_id ++ "/" ++ job_name

/-- Modelled from the spec: `Path.append_hf_model_folder` of
`kiliautoml/utils/path.py` (not among the sources) — models live under
`model/<framework>/` below the model-repository path. -/
def Path.append_hf_model_folder (path framework : String) : String :=
  path ++ "/model/" ++ framework

/-- The loop `for model_repository in model_repositories:` of
`clear_automl_cache` (`src/kiliautoml/utils/memoization.py`, lines 68-82),
threading the growing `cache_paths` list and the filesystem: for `train` it
asserts `job_name is not None` and appends the job's `model/pytorch` cache
subtree for the current repository, then deletes every accumulated path that
exists. -/
def clearRepoLoop (home project_id command : String) (job_name : Option String) :
    List String → List String → List String → Except String (List String)
  | [], _cache_paths, fs => Except.ok fs
  | repo :: rest, cache_paths, fs => do
      let cache_paths ←
        if command = "train" then
          match job_name with
          | none => Except.error "AssertionError"
          | some j =>
              Except.ok (cache_paths ++
                [Path.append_hf_model_folder
                  (Path.model_repository home project_id j repo) "pytorch"])
        else Except.ok cache_paths
      clearRepoLoop home project_id command job_name rest cache_paths
        (cache_paths.foldl rmtreeIfExists fs)

/-- `clear_automl_cache` of `src/kiliautoml/utils/memoization.py`: computes
the per-command operation-category cache paths, expands an unspecified model
repository to every known repository, and runs the deletion loop.  The
Python global `HOME` is passed explicitly as `home`. -/
def clear_automl_cache (home : String) (fs : List String) (project_id : String)
    (command : String) (model_repository : Option String)
    (job_name : Option String) : Except String (List String) := do
  let sub_dirs ←
    if command = "train" then Except.ok ["get_asset_memoized"]
    else if command = "prioritize" then Except.ok ["get_asset_memoized"]
    else Except.error ("command " ++ command ++ " not recognized")
  let cache_paths := sub_dirs.map (fun s => Path.cache home project_id s)
  let model_repositories :=
    match model_repository with
    | none => knownModelRepositories
    | some r => [r]
  clearRepoLoop home project_id command job_name model_repositories cache_paths fs

lemma rmtreeIfExists_eq_rmtree (fs : List String) (p : String) :
    rmtreeIfExists fs p = rmtree fs p := by
  unfold rmtreeIfExists
  split_ifs with h
  · rfl
  · unfold pathExists at h
    unfold rmtree
    symm
    rw [List.filter_eq_self]
    intro f hf
    simp only [List.any_eq_true, not_exists, not_and] at h
    simp [h f hf]

lemma mem_foldl_rmtreeIfExists (ps : List String) :
    ∀ (fs : List String) (f : String),
      f ∈ ps.foldl rmtreeIfExists fs ↔ f ∈ fs ∧ ∀ p ∈ ps, hitBy p f = false := by
  induction ps with
  | nil => simp
  | cons p rest ih =>
      intro fs f
      simp only [List.foldl_cons, ih, rmtreeIfExists_eq_rmtree, rmtree,
        List.mem_filter, List.mem_cons]
      constructor
      · rintro ⟨⟨hfs, hp⟩, hrest⟩
        refine ⟨hfs, ?_⟩
        intro q hq
        rcases hq with hq | hq
        · subst hq; simpa using hp
        · exact hrest q hq
      · rintro ⟨hfs, hall⟩
        refine ⟨⟨hfs, by simp [hall p (Or.inl rfl)]⟩, ?_⟩
        intro q hq
        exact hall q (Or.inr hq)

/-- The per-repository cache target appended by `clear_automl_cache` for the
`train` command. -/
def trainModelCacheTarget (home project_id j repo : String) : String :=
  Path.append_hf_model_folder (Path.model_repository home project_id j repo) "pytorch"

lemma clearRepoLoop_train_ok (home project_id j : String) :
    ∀ (repos cache_paths fs : List String),
      ∃ fs', clearRepoLoop home project_id "train" (some j) repos cache_paths fs =
          Except.ok fs' ∧
        ∀ f, f ∈ fs' ↔ f ∈ fs ∧
          (repos = [] ∨
            ((∀ p ∈ cache_paths, hitBy p f = false) ∧
             ∀ r ∈ repos, hitBy (trainModelCacheTarget home project_id j r) f = false)) := by
  intro repos
  induction repos with
  | nil =>
      intro cache_paths fs
      exact ⟨fs, rfl, by simp⟩
  | cons r rest ih =>
      intro cache_paths fs
      obtain ⟨fs', hrec, hmem⟩ :=
        ih (cache_paths ++ [trainModelCacheTarget home project_id j r])
          ((cache_paths ++ [trainModelCacheTarget home project_id j r]).foldl
            rmtreeIfExists fs)
      refine ⟨fs', ?_, ?_⟩
      · rw [show clearRepoLoop home project_id "train" (some j) (r :: rest)
              cache_paths fs =
            clearRepoLoop home project_id "train" (some j) rest
              (cache_paths ++ [trainModelCacheTarget home project_id j r])
              ((cache_paths ++ [trainModelCacheTarget home project_id j r]).foldl
                rmtreeIfExists fs) from rfl]
        exact hrec
      · intro f
        rw [hmem f, mem_foldl_rmtreeIfExists]
        constructor
        · rintro ⟨⟨hfs, hcp⟩, hdisj⟩
          refine ⟨hfs, Or.inr ⟨fun p hp => hcp p (by simp [hp]), fun r' hr' => ?_⟩⟩
          rcases List.mem_cons.mp hr' with hr' | hr'
          · subst hr'
            exact hcp _ (by simp)
          · rcases hdisj with hE | ⟨_, hD⟩
            · subst hE
              simp at hr'
            · exact hD r' hr'
        · rintro ⟨hfs, hdisj⟩
          rcases hdisj with hE | ⟨hB, hD⟩
          · exact absurd hE (by simp)
          · have hC := hD r (List.mem_cons_self r rest)
            have hcp : ∀ p ∈ cache_paths ++ [trainModelCacheTarget home project_id j r],
                hitBy p f = false := by
              intro p hp
              rcases List.mem_append.mp hp with h | h
              · exact hB p h
              · rw [List.mem_singleton.mp h]
                exact hC
            refine ⟨⟨hfs, hcp⟩, Or.inr ⟨hcp, fun r' hr' =>
              hD r' (List.mem_cons.mpr (Or.inr hr'))⟩⟩

lemma clearRepoLoop_prioritize_ok (home project_id : String) (jn : Option String) :
    ∀ (repos cache_paths fs : List String),
      ∃ fs', clearRepoLoop home project_id "prioritize" jn repos cache_paths fs =
          Except.ok fs' ∧
        ∀ f, f ∈ fs' ↔ f ∈ fs ∧
          (repos = [] ∨ ∀ p ∈ cache_paths, hitBy p f = false) := by
  intro repos
  induction repos with
  | nil =>
      intro cache_paths fs
      exact ⟨fs, rfl, by simp⟩
  | cons r rest ih =>
      intro cache_paths fs
      obtain ⟨fs', hrec, hmem⟩ := ih cache_paths (cache_paths.foldl rmtreeIfExists fs)
      refine ⟨fs', ?_, ?_⟩
      · rw [show clearRepoLoop home project_id "prioritize" jn (r :: rest)
              cache_paths fs =
            clearRepoLoop home project_id "prioritize" jn rest cache_paths
              (cache_paths.foldl rmtreeIfExists fs) from rfl]
        exact hrec
      · intro f
        rw [hmem f, mem_foldl_rmtreeIfExists]
        constructor
        · rintro ⟨⟨hfs, hcp⟩, _⟩
          exact ⟨hfs, Or.inr hcp⟩
        · rintro ⟨hfs, hdisj⟩
          rcases hdisj with hE | hB
          · exact absurd hE (by simp)
          · exact ⟨⟨hfs, hB⟩, Or.inr hB⟩

/-- C5: for a call `clear_automl_cache(project_id, command, model_repository,
job_name)` with `command` in {train, prioritize}: when `model_repository` is
`None` the invalidation covers every known model repository; for `train` it
additionally deletes the job-specific model-framework cache subtree under the
model-repository path of each covered repository; deletion is recursive (every
file at or below a target path is gone) and a target path with nothing on disk
is silently skipped — the call succeeds on every filesystem, never raising. -/
theorem clear_automl_cache_spec :
    ∀ (home project_id jobName : String) (jn : Option String) (fs : List String)
      (model_repository : Option String),
      (∃ fs', clear_automl_cache home fs project_id "train" model_repository
            (some jobName) = Except.ok fs' ∧
        ∀ f, f ∈ fs' ↔ f ∈ fs ∧
          hitBy (Path.cache home project_id "get_asset_memoized") f = false ∧
          ∀ r ∈ (match model_repository with
                  | none => knownModelRepositories
                  | some r => [r]),
            hitBy (trainModelCacheTarget home project_id jobName r) f = false) ∧
      (∃ fs', clear_automl_cache home fs project_id "prioritize" model_repository
            jn = Except.ok fs' ∧
        ∀ f, f ∈ fs' ↔ f ∈ fs ∧
          hitBy (Path.cache home project_id "get_asset_memoized") f = false) := by
  intro home project_id jobName jn fs model_repository
  constructor
  · cases model_repository with
    | none =>
        obtain ⟨fs', hok, hmem⟩ := clearRepoLoop_train_ok home project_id jobName
          knownModelRepositories [Path.cache home project_id "get_asset_memoized"] fs
        refine ⟨fs', hok, ?_⟩
        intro f
        rw [hmem f]
        simp [knownModelRepositories]
    | some r =>
        obtain ⟨fs', hok, hmem⟩ := clearRepoLoop_train_ok home project_id jobName
          [r] [Path.cache home project_id "get_asset_memoized"] fs
        refine ⟨fs', hok, ?_⟩
        intro f
        rw [hmem f]
        simp
  · cases model_repository with
    | none =>
        obtain ⟨fs', hok, hmem⟩ := clearRepoLoop_prioritize_ok home project_id jn
          knownModelRepositories [Path.cache home project_id "get_asset_memoized"] fs
        refine ⟨fs', hok, ?_⟩
        intro f
        rw [hmem f]
        simp [knownModelRepositories]
    | some r =>
        obtain ⟨fs', hok, hmem⟩ := clearRepoLoop_prioritize_ok home project_id jn
          [r] [Path.cache home project_id "get_asset_memoized"] fs
        refine ⟨fs', hok, ?_⟩
        intro f
        rw [hmem f]
        simp

/-- The dataset-cache guard of `huggingface_train_text_classification_single`
(`src/utils/huggingface/train_huggingface.py`, lines 141-148):
`path_dataset = os.path.join(path, "dataset", "data.json")`; if the file
exists and `clear_dataset_cache` is set it is removed; if it (still) exists a
`FileExistsError` is raised before anything is written; otherwise the dataset
file is written at `path_dataset`.  The result is the filesystem at exit
together with the raised error message, if any. -/
def classification_dataset_phase (fs : List String) (path : String)
    (clear_dataset_cache : Bool) : List String × Option String :=
  let path_dataset := path ++ "/dataset/data.json"
  let fs1 :=
    if path_dataset ∈ fs ∧ clear_dataset_cache = true then fs.erase path_dataset
    else fs
  if path_dataset ∈ fs1 then
    (fs1, some ("Dataset already exists at " ++ path_dataset))
  else (path_dataset :: fs1, none)

/-- C6: if a dataset file already exists at the computed dataset path and
`clear_dataset_cache` was not requested, the classification adapter fails
with a `FileExistsError` and the filesystem is unchanged (nothing written);
if `clear_dataset_cache` was requested, the pre-existing file is removed and
the adapter proceeds to write the dataset; with no pre-existing file it
proceeds directly. -/
theorem classification_dataset_guard :
    ∀ (fs : List String) (path : String),
      ((path ++ "/dataset/data.json") ∈ fs →
        classification_dataset_phase fs path false =
          (fs, some ("Dataset already exists at " ++ (path ++ "/dataset/data.json")))) ∧
      ((path ++ "/dataset/data.json") ∈ fs → fs.Nodup →
        classification_dataset_phase fs path true =
          ((path ++ "/dataset/data.json") :: fs.erase (path ++ "/dataset/data.json"),
            none)) ∧
      (∀ clear_dataset_cache : Bool, (path ++ "/dataset/data.json") ∉ fs →
        classification_dataset_phase fs path clear_dataset_cache =
          ((path ++ "/dataset/data.json") :: fs, none)) := by
  intro fs path
  refine ⟨?_, ?_, ?_⟩
  · intro hmem
    simp [classification_dataset_phase, hmem]
  · intro hmem hnd
    have herase : (path ++ "/dataset/data.json") ∉
        fs.erase (path ++ "/dataset/data.json") := by
      rw [hnd.mem_erase_iff]
      simp
    simp [classification_dataset_phase, hmem, herase]
  · intro clear_dataset_cache hmem
    cases clear_dataset_cache <;> simp [classification_dataset_phase, hmem]

/-- Witness for C6: at a one-file filesystem holding the dataset file for
path "a", the three conclusions instantiate concretely. -/
theorem classification_dataset_guard_witness :
    (("a" ++ "/dataset/data.json") ∈ ["a/dataset/data.json"] ∧
      ["a/dataset/data.json"].Nodup) ∧
    classification_dataset_phase ["a/dataset/data.json"] "a" false =
      (["a/dataset/data.json"],
        some ("Dataset already exists at " ++ ("a" ++ "/dataset/data.json"))) ∧
    classification_dataset_phase ["a/dataset/data.json"] "a" true =
      (("a" ++ "/dataset/data.json") ::
        ["a/dataset/data.json"].erase ("a" ++ "/dataset/data.json"), none) ∧
    classification_dataset_phase [] "a" true = (("a" ++ "/dataset/data.json") :: [], none) :=
  ⟨⟨by decide, by decide⟩,
   (classification_dataset_guard ["a/dataset/data.json"] "a").1 (by decide),
   (classification_dataset_guard ["a/dataset/data.json"] "a").2.1 (by decide) (by decide),
   (classification_dataset_guard [] "a").2.2 true (by decide)⟩

/-- Splitting a normalized "/"-separated path into its segments:
`os.path.normpath(p).split(os.path.sep)` for an already-normal path, modelled
character-exactly as splitting the character list on `'/'`. -/
def splitPath (p : String) : List String :=
  (p.data.splitOn '/').map (fun l => String.mk l)

/-- `HuggingFaceMixin._extract_model_info` of
`src/kiliautoml/mixins/_hugging_face_mixin.py` (lines 83-101), applied to the
artifact path found by `get_last_trained_model_path` (an external lookup, so
the path is taken as input here): the fourth-from-last path segment must equal
the expected model repository ("huggingface") or the parse fails with
"Inconsistent model base repository"; the second-from-last segment must be one
of the recognized frameworks (pytorch, tensorflow) or it fails with "Unknown
model framework"; otherwise it returns the path, the repository and the parsed
framework.  A path with fewer than four segments is a Python `IndexError`. -/
def extract_model_info (model_path_res : String) :
    Except String (String × String × String) :=
  match (splitPath model_path_res).reverse with
  | _ts :: fw :: _mdl :: repo :: _rest =>
      if repo ≠ ModelRepository.HuggingFace then
        Except.error "Inconsistent model base repository"
      else if fw = ModelFramework.PyTorch ∨ fw = ModelFramework.Tensorflow then
        Except.ok (model_path_res, ModelRepository.HuggingFace, fw)
      else Except.error "Unknown model framework"
  | _ => Except.error "IndexError"

/-- C7: parsing an artifact path back into its components fails (rather than
guessing or returning a default) when the repository segment is not the
expected model repository, or when the framework segment is not a recognized
framework; when both are recognized it returns the path together with the
repository and the parsed framework. -/
theorem extract_model_info_spec :
    ∀ (p : String) (ts fw mdl repo : String) (rest : List String),
      (splitPath p).reverse = ts :: fw :: mdl :: repo :: rest →
      ((repo ≠ ModelRepository.HuggingFace →
          extract_model_info p = Except.error "Inconsistent model base repository") ∧
       (repo = ModelRepository.HuggingFace →
          fw ≠ ModelFramework.PyTorch → fw ≠ ModelFramework.Tensorflow →
          extract_model_info p = Except.error "Unknown model framework") ∧
       (repo = ModelRepository.HuggingFace →
          (fw = ModelFramework.PyTorch ∨ fw = ModelFramework.Tensorflow) →
          extract_model_info p =
            Except.ok (p, ModelRepository.HuggingFace, fw))) := by
  intro p ts fw mdl repo rest hsplit
  refine ⟨?_, ?_, ?_⟩
  · intro hrepo
    simp [extract_model_info, hsplit, hrepo]
  · intro hrepo hfw1 hfw2
    simp [extract_model_info, hsplit, hrepo, hfw1, hfw2]
  · intro hrepo hfw
    simp [extract_model_info, hsplit, hrepo, hfw]

/-- Witness for C7: a concrete artifact path with recognized repository and
framework segments parses to its components; the same path with segments
renamed is used to discharge each hypothesis concretely. -/
theorem extract_model_info_spec_witness :
    (splitPath "a/huggingface/model/pytorch/2022-01-01").reverse =
      "2022-01-01" :: "pytorch" :: "model" :: "huggingface" :: ["a"] ∧
    extract_model_info "a/huggingface/model/pytorch/2022-01-01" =
      Except.ok ("a/huggingface/model/pytorch/2022-01-01",
        ModelRepository.HuggingFace, "pytorch") :=
  ⟨by decide,
   (extract_model_info_spec "a/huggingface/model/pytorch/2022-01-01"
      "2022-01-01" "pytorch" "model" "huggingface" ["a"] (by decide)).2.2
     (by decide) (Or.inl (by decide))⟩

/-- The outcome of one call through a `kili_project_memoizer`-wrapped
function: the call's result and the cache namespace it used, if any. -/
structure MemoOutcome (α : Type) where
  result : Except String α
  cachePath : Option String
  deriving Repr

/-- The wrapper produced by `kili_project_memoizer(sub_dir)` of
`src/kiliautoml/utils/memoization.py` (lines 23-39): reads the `project_id`
keyword argument, raising `ValueError("project_id not specified in a keyword
argument")` when it is falsy (absent or empty) before touching the wrapped
function; otherwise builds the per-project, per-operation-category cache path
`Path.cache(project_id, sub_dir)` and runs the wrapped function through a
`joblib.Memory` cache rooted there (the memoized call is modelled as invoking
the wrapped function).  The Python global `HOME` inside `Path.cache` is the
explicit `home` argument. -/
def kili_project_memoizer {α : Type} (home sub_dir : String)
    (some_function : Unit → α) (project_id : Option String) : MemoOutcome α :=
  match project_id with
  | none => ⟨Except.error "project_id not specified in a keyword argument", none⟩
  | some pid =>
      if pid = "" then
        ⟨Except.error "project_id not specified in a keyword argument", none⟩
      else ⟨Except.ok (some_function ()), some (Path.cache home pid sub_dir)⟩

/-- C8: a call through a project-scoped memoized function fails with the
missing-project-id `ValueError` when the `project_id` keyword argument is
absent (or empty, which Python's falsiness check treats the same), and the
wrapped function is never invoked — the outcome is independent of it; when a
non-empty `project_id` is supplied, the cache namespace is the per-project,
per-operation-category path `<cache_root>/<project_id>/<sub_dir>` and the call
returns the wrapped function's (memoized) result. -/
theorem kili_project_memoizer_spec :
    ∀ {α : Type} (home sub_dir : String) (f g : Unit → α),
      ((kili_project_memoizer home sub_dir f none).result =
        Except.error "project_id not specified in a keyword argument") ∧
      ((kili_project_memoizer home sub_dir f (some "")).result =
        Except.error "project_id not specified in a keyword argument") ∧
      (kili_project_memoizer home sub_dir f none =
        kili_project_memoizer home sub_dir g none) ∧
      (kili_project_memoizer home sub_dir f (some "") =
        kili_project_memoizer home sub_dir g (some "")) ∧
      (∀ pid : String, pid ≠ "" →
        kili_project_memoizer home sub_dir f (some pid) =
          ⟨Except.ok (f ()), some (Path.cache home pid sub_dir)⟩) := by
  intro α home sub_dir f g
  refine ⟨rfl, rfl, rfl, rfl, ?_⟩
  intro pid hpid
  simp [kili_project_memoizer, hpid]

/-- Witness for C8: the theorem applied with a concrete non-empty project id. -/
theorem kili_project_memoizer_spec_witness :
    ("p1" : String) ≠ "" ∧
      kili_project_memoizer "h" "get_asset_memoized" (fun _ => (0 : Nat)) (some "p1") =
        ⟨Except.ok 0, some (Path.cache "h" "p1" "get_asset_memoized")⟩ :=
  ⟨by decide,
   (kili_project_memoizer_spec "h" "get_asset_memoized" (fun _ => (0 : Nat))
      (fun _ => (1 : Nat))).2.2.2.2 "p1" (by decide)⟩

/-- Modelled from the spec: `build_model_repository_path` of
`utils/helpers.py` (not among the sources; `src/train.py` imports and calls
it) — the artifact layout is `<root>/<model_repository>/<project_id>/<job_name>/...`. -/
def build_model_repository_path (root_dir project_id job_name model_repository : String) :
    String :=
  root_dir ++ "/" ++ model_repository ++ "/" ++ project_id ++ "/" ++ job_name

/-- `train_ner` of `src/train.py` (lines 76-125): resolves the model
repository against the allow-list `[HuggingFace]`, builds the repository
path, and under the guard `model_repository == ModelRepository.HuggingFace`
resolves framework and model name and returns the NER adapter's training
loss; the `else` branch returns `None`.  The adapter is abstracted as
`adapterLoss` applied to the resolved framework, model name and path. -/
def train_ner {α : Type} (home project_id job_name : String)
    (model_framework model_name model_repository : Option String)
    (adapterLoss : String → String → String → α) :
    Except ResolverError (Option α) :=
  match set_default model_repository ModelRepository.HuggingFace
      "model_repository" [ModelRepository.HuggingFace] with
  | Except.error e => Except.error e
  | Except.ok mr =>
      let path := build_model_repository_path home project_id job_name mr
      if mr = ModelRepository.HuggingFace then
        match set_default model_framework ModelFramework.PyTorch
            "model_framework" [ModelFramework.PyTorch, ModelFramework.Tensorflow] with
        | Except.error e => Except.error e
        | Except.ok mf =>
            match set_default model_name ModelName.BertBaseMultilingualCased
                "model_name" [ModelName.BertBaseMultilingualCased,
                  ModelName.DistilbertBaseCased] with
            | Except.error e => Except.error e
            | Except.ok mn => Except.ok (some (adapterLoss mf mn path))
      else Except.ok none

/-- `train_text_classification_single` of `src/train.py` (lines 128-175):
same structure as `train_ner` with the classification adapter and the
one-element model-name allow-list; the Python `if` has no `else`, so the
fall-through implicitly returns `None`. -/
def train_text_classification_single {α : Type} (home project_id job_name : String)
    (model_framework model_name model_repository : Option String)
    (adapterLoss : String → String → String → α) :
    Except ResolverError (Option α) :=
  match set_default model_repository ModelRepository.HuggingFace
      "model_repository" [ModelRepository.HuggingFace] with
  | Except.error e => Except.error e
  | Except.ok mr =>
      let path := build_model_repository_path home project_id job_name mr
      if mr = ModelRepository.HuggingFace then
        match set_default model_framework ModelFramework.PyTorch
            "model_framework" [ModelFramework.PyTorch, ModelFramework.Tensorflow] with
        | Except.error e => Except.error e
        | Except.ok mf =>
            match set_default model_name ModelName.BertBaseMultilingualCased
                "model_name" [ModelName.BertBaseMultilingualCased] with
            | Except.error e => Except.error e
            | Except.ok mn => Except.ok (some (adapterLoss mf mn path))
      else Except.ok none

lemma set_default_ok_eq_of_singleton (uv : Option String) (fb fn v : String)
    (h : set_default uv fb fn [fb] = Except.ok v) : v = fb := by
  cases uv with
  | none =>
      simp [set_default] at h
      exact h.symm
  | some u =>
      simp only [set_default] at h
      split_ifs at h with h1 h2 <;> simp_all

/-- C10: in `train_ner` and `train_text_classification_single`, whenever the
model-repository resolution via `set_default` (allow-list `[HuggingFace]`)
succeeds, the subsequent guard `model_repository == ModelRepository.HuggingFace`
holds, so the fall-through branch returning `None` is unreachable: every
non-error result of either function carries the adapter's training loss. -/
theorem train_fallthrough_unreachable :
    ∀ {α : Type} (home project_id job_name : String)
      (model_framework model_name model_repository : Option String)
      (adapterLoss : String → String → String → α),
      (∀ r, train_ner home project_id job_name model_framework model_name
          model_repository adapterLoss = Except.ok r → ∃ l, r = some l) ∧
      (∀ r, train_text_classification_single home project_id job_name
          model_framework model_name model_repository adapterLoss =
            Except.ok r → ∃ l, r = some l) := by
  intro α home project_id job_name model_framework model_name model_repository
    adapterLoss
  constructor
  · intro r h
    unfold train_ner at h
    split at h
    · simp at h
    · rename_i mr hmr
      have hmreq := set_default_ok_eq_of_singleton _ _ _ _ hmr
      subst hmreq
      rw [if_pos rfl] at h
      split at h
      · simp at h
      · split at h
        · simp at h
        · simp only [Except.ok.injEq] at h
          exact ⟨_, h.symm⟩
  · intro r h
    unfold train_text_classification_single at h
    split at h
    · simp at h
    · rename_i mr hmr
      have hmreq := set_default_ok_eq_of_singleton _ _ _ _ hmr
      subst hmreq
      rw [if_pos rfl] at h
      split at h
      · simp at h
      · split at h
        · simp at h
        · simp only [Except.ok.injEq] at h
          exact ⟨_, h.symm⟩

/-- Witness for C10: with every user choice unset, both functions resolve the
fallbacks and return the adapter's loss; the theorem applied at this concrete
input yields a `some` result. -/
theorem train_fallthrough_unreachable_witness :
    (train_ner "h" "p" "j" none none none (fun mf mn path => (mf, mn, path)) =
      Except.ok (some (ModelFramework.PyTorch, ModelName.BertBaseMultilingualCased,
        build_model_repository_path "h" "p" "j" ModelRepository.HuggingFace))) ∧
    (∃ l, (some (ModelFramework.PyTorch, ModelName.BertBaseMultilingualCased,
        build_model_repository_path "h" "p" "j" ModelRepository.HuggingFace) :
          Option (String × String × String)) = some l) :=
  ⟨rfl,
   (train_fallthrough_unreachable "h" "p" "j" none none none
      (fun mf mn path => (mf, mn, path))).1 _ rfl⟩

/-! ### Timestamps and the model artifact path -/

/-- A wall-clock timestamp, at the fields the `strftime` rendering prints. -/
structure Timestamp where
  year : Nat
  month : Nat
  day : Nat
  hour : Nat
  minute : Nat
  second : Nat
  deriving DecidableEq, Repr

/-- A calendar-valid timestamp, as `datetime.now()` produces (Python
`datetime` years range over 1..9999). -/
def Timestamp.Valid (t : Timestamp) : Prop :=
  t.year ≤ 9999 ∧ 1 ≤ t.month ∧ t.month ≤ 12 ∧ 1 ≤ t.day ∧ t.day ≤ 31 ∧
    t.hour ≤ 23 ∧ t.minute ≤ 59 ∧ t.second ≤ 59

instance (t : Timestamp) : Decidable t.Valid := by
  unfold Timestamp.Valid
  exact inferInstance

/-- Zero-padded fixed-width decimal rendering: `padNat k n` prints the `k`
low decimal digits of `n`, most significant first — the `%0kd` rendering
`strftime` uses for each field (exact for `n < 10 ^ k`). -/
def padNat : Nat → Nat → List Char
  | 0, _ => []
  | k + 1, n => Nat.digitChar (n / 10 ^ k) :: padNat k (n % 10 ^ k)

/-- The characters of `datetime.now().strftime("%Y-%m-%d %H:%M:%S")`, the
timestamp rendering of the model directory in
`src/utils/huggingface/train_huggingface.py` (lines 95-97 and 183-185):
second granularity, space-separated date and time. -/
def strftimeChars (t : Timestamp) : List Char :=
  padNat 4 t.year ++ ['-'] ++ padNat 2 t.month ++ ['-'] ++ padNat 2 t.day ++
    [' '] ++ padNat 2 t.hour ++ [':'] ++ padNat 2 t.minute ++ [':'] ++
    padNat 2 t.second

/-- The timestamp path segment as a string. -/
def timestampString (t : Timestamp) : String := String.mk (strftimeChars t)

/-- `path_model = os.path.join(path, "model", model_framework,
datetime.now().strftime("%Y-%m-%d %H:%M:%S"))` of
`src/utils/huggingface/train_huggingface.py` (lines 95-97 and 183-185). -/
def path_model (path model_framework : String) (t : Timestamp) : String :=
  path ++ "/model/" ++ model_framework ++ "/" ++ timestampString t

/-- `t₁` truncated to minute precision is earlier than `t₂` truncated to
minute precision — the order relation that holds between two wall-clock
readings taken at least one minute apart (seconds alone cannot span a full
minute). -/
def minuteEarlier (t₁ t₂ : Timestamp) : Prop :=
  t₁.year < t₂.year ∨ (t₁.year = t₂.year ∧
    (t₁.month < t₂.month ∨ (t₁.month = t₂.month ∧
      (t₁.day < t₂.day ∨ (t₁.day = t₂.day ∧
        (t₁.hour < t₂.hour ∨ (t₁.hour = t₂.hour ∧
          t₁.minute < t₂.minute)))))))

instance (t₁ t₂ : Timestamp) : Decidable (minuteEarlier t₁ t₂) := by
  unfold minuteEarlier
  exact inferInstance

lemma digitChar_lt_digitChar :
    ∀ a < 10, ∀ b < 10, a < b → Nat.digitChar a < Nat.digitChar b := by decide

lemma digitChar_inj_lt :
    ∀ a < 10, ∀ b < 10, Nat.digitChar a = Nat.digitChar b → a = b := by decide

lemma padNat_length : ∀ (k n : Nat), (padNat k n).length = k := by
  intro k
  induction k with
  | zero => intro n; rfl
  | succ k ih => intro n; simp [padNat, ih]

lemma padNat_lex :
    ∀ (k a b : Nat), a < b → b < 10 ^ k →
      List.Lex (· < ·) (padNat k a) (padNat k b) := by
  intro k
  induction k with
  | zero =>
      intro a b hab hb
      simp only [pow_zero] at hb
      omega
  | succ k ih =>
      intro a b hab hb
      have hpow : 0 < 10 ^ k := Nat.pos_pow_of_pos k (by omega)
      have hqb : b / 10 ^ k < 10 := by
        rw [Nat.div_lt_iff_lt_mul hpow]
        rw [pow_succ] at hb
        omega
      have hq : a / 10 ^ k ≤ b / 10 ^ k := Nat.div_le_div_right (le_of_lt hab)
      rcases lt_or_eq_of_le hq with hlt | heq
      · exact List.Lex.rel
          (digitChar_lt_digitChar _ (lt_of_le_of_lt hq hqb) _ hqb hlt)
      · have hda := Nat.div_add_mod a (10 ^ k)
        have hdb := Nat.div_add_mod b (10 ^ k)
        rw [heq] at hda
        have hr : a % 10 ^ k < b % 10 ^ k := by omega
        simp only [padNat, heq]
        exact List.Lex.cons (ih _ _ hr (Nat.mod_lt _ hpow))

lemma padNat_inj :
    ∀ (k a b : Nat), a < 10 ^ k → b < 10 ^ k → padNat k a = padNat k b → a = b := by
  intro k
  induction k with
  | zero =>
      intro a b ha hb _
      simp only [pow_zero] at ha hb
      omega
  | succ k ih =>
      intro a b ha hb h
      have hpow : 0 < 10 ^ k := Nat.pos_pow_of_pos k (by omega)
      simp only [padNat, List.cons.injEq] at h
      have hqa : a / 10 ^ k < 10 := by
        rw [Nat.div_lt_iff_lt_mul hpow]
        rw [pow_succ] at ha
        omega
      have hqb : b / 10 ^ k < 10 := by
        rw [Nat.div_lt_iff_lt_mul hpow]
        rw [pow_succ] at hb
        omega
      have hqeq := digitChar_inj_lt _ hqa _ hqb h.1
      have hreq := ih _ _ (Nat.mod_lt _ hpow) (Nat.mod_lt _ hpow) h.2
      have hda := Nat.div_add_mod a (10 ^ k)
      have hdb := Nat.div_add_mod b (10 ^ k)
      rw [hqeq, hreq] at hda
      omega

lemma lex_append_left {r : Char → Char → Prop} (p : List Char)
    {s t : List Char} (h : List.Lex r s t) : List.Lex r (p ++ s) (p ++ t) := by
  induction p with
  | nil => simpa using h
  | cons c cs ih => exact List.Lex.cons ih

lemma lex_append_of_length_eq {r : Char → Char → Prop} :
    ∀ {s t : List Char}, s.length = t.length → List.Lex r s t →
      ∀ u v : List Char, List.Lex r (s ++ u) (t ++ v) := by
  intro s t hlen h
  induction h with
  | nil => simp at hlen
  | rel hr => intro u v; exact List.Lex.rel hr
  | cons h ih =>
      intro u v
      exact List.Lex.cons (ih (by simpa using hlen) u v)

lemma strftimeChars_lex (t₁ t₂ : Timestamp) (hv₁ : t₁.Valid) (hv₂ : t₂.Valid)
    (h : minuteEarlier t₁ t₂) :
    List.Lex (· < ·) (strftimeChars t₁) (strftimeChars t₂) := by
  obtain ⟨hy1, hmo1a, hmo1b, hd1a, hd1b, hh1, hmi1, hs1⟩ := hv₁
  obtain ⟨hy2, hmo2a, hmo2b, hd2a, hd2b, hh2, hmi2, hs2⟩ := hv₂
  have p4 : (10 : ℕ) ^ 4 = 10000 := by norm_num
  have p2 : (10 : ℕ) ^ 2 = 100 := by norm_num
  simp only [strftimeChars, List.append_assoc, List.singleton_append]
  rcases h with hy | ⟨hy, hmo | ⟨hmo, hd | ⟨hd, hh | ⟨hh, hmi⟩⟩⟩⟩
  · exact lex_append_of_length_eq (by simp [padNat_length])
      (padNat_lex 4 _ _ hy (by omega)) _ _
  · rw [hy]
    exact lex_append_left _ (List.Lex.cons
      (lex_append_of_length_eq (by simp [padNat_length])
        (padNat_lex 2 _ _ hmo (by omega)) _ _))
  · rw [hy, hmo]
    exact lex_append_left _ (List.Lex.cons (lex_append_left _ (List.Lex.cons
      (lex_append_of_length_eq (by simp [padNat_length])
        (padNat_lex 2 _ _ hd (by omega)) _ _))))
  · rw [hy, hmo, hd]
    exact lex_append_left _ (List.Lex.cons (lex_append_left _ (List.Lex.cons
      (lex_append_left _ (List.Lex.cons
      (lex_append_of_length_eq (by simp [padNat_length])
        (padNat_lex 2 _ _ hh (by omega)) _ _))))))
  · rw [hy, hmo, hd, hh]
    exact lex_append_left _ (List.Lex.cons (lex_append_left _ (List.Lex.cons
      (lex_append_left _ (List.Lex.cons (lex_append_left _ (List.Lex.cons
      (lex_append_of_length_eq (by simp [padNat_length])
        (padNat_lex 2 _ _ hmi (by omega)) _ _))))))))

lemma strftimeChars_inj :
    ∀ (t₁ t₂ : Timestamp), t₁.Valid → t₂.Valid →
      strftimeChars t₁ = strftimeChars t₂ → t₁ = t₂ := by
  rintro ⟨y₁, mo₁, d₁, hr₁, mi₁, s₁⟩ ⟨y₂, mo₂, d₂, hr₂, mi₂, s₂⟩ hv₁ hv₂ h
  simp only [Timestamp.Valid] at hv₁ hv₂
  obtain ⟨hy1, hmo1a, hmo1b, hd1a, hd1b, hh1, hmi1, hs1⟩ := hv₁
  obtain ⟨hy2, hmo2a, hmo2b, hd2a, hd2b, hh2, hmi2, hs2⟩ := hv₂
  have p4 : (10 : ℕ) ^ 4 = 10000 := by norm_num
  have p2 : (10 : ℕ) ^ 2 = 100 := by norm_num
  simp only [strftimeChars, List.append_assoc, List.singleton_append] at h
  obtain ⟨hy, h⟩ := List.append_inj h (by simp [padNat_length])
  injection h with hc h
  obtain ⟨hmo, h⟩ := List.append_inj h (by simp [padNat_length])
  injection h with hc h
  obtain ⟨hd, h⟩ := List.append_inj h (by simp [padNat_length])
  injection h with hc h
  obtain ⟨hh, h⟩ := List.append_inj h (by simp [padNat_length])
  injection h with hc h
  obtain ⟨hmi, hs⟩ := List.append_inj h (by simp [padNat_length])
  injection hs with hc hs
  have ey := padNat_inj 4 _ _ (by omega) (by omega) hy
  have emo := padNat_inj 2 _ _ (by omega) (by omega) hmo
  have ed := padNat_inj 2 _ _ (by omega) (by omega) hd
  have eh := padNat_inj 2 _ _ (by omega) (by omega) hh
  have emi := padNat_inj 2 _ _ (by omega) (by omega) hmi
  have es := padNat_inj 2 _ _ (by omega) (by omega) hs
  simp only [Timestamp.mk.injEq]
  exact ⟨ey, emo, ed, eh, emi, es⟩

/-- C2: for a fixed `(root, project, job, repository, framework)` — that is,
a fixed repository path and framework — two invocations of the model-path
builder whose timestamps differ by at least one minute (their
minute-truncations are ordered) produce distinct paths, and the path of the
chronologically later invocation sorts lexicographically after the path of
the earlier one. -/
theorem model_path_unique_ordered :
    ∀ (path model_framework : String) (t₁ t₂ : Timestamp),
      t₁.Valid → t₂.Valid → minuteEarlier t₁ t₂ →
      path_model path model_framework t₁ ≠ path_model path model_framework t₂ ∧
      path_model path model_framework t₁ < path_model path model_framework t₂ := by
  intro path model_framework t₁ t₂ hv₁ hv₂ h
  have hlex := strftimeChars_lex t₁ t₂ hv₁ hv₂ h
  have hlt : path_model path model_framework t₁ <
      path_model path model_framework t₂ := by
    rw [String.lt_iff_toList_lt]
    have hdata : ∀ t : Timestamp,
        (path_model path model_framework t).toList =
          (path ++ "/model/" ++ model_framework ++ "/").toList ++
            strftimeChars t := by
      intro t
      show (path_model path model_framework t).data = _
      simp only [path_model, timestampString, String.data_append]
      simp [String.data_append]
    rw [hdata t₁, hdata t₂]
    exact lex_append_left _ hlex
  exact ⟨ne_of_lt hlt, hlt⟩

/-- Witness for C2: two concrete timestamps one minute apart give distinct,
ordered model paths. -/
theorem model_path_unique_ordered_witness :
    (Timestamp.mk 2022 1 2 3 4 5).Valid ∧ (Timestamp.mk 2022 1 2 3 5 5).Valid ∧
    minuteEarlier (Timestamp.mk 2022 1 2 3 4 5) (Timestamp.mk 2022 1 2 3 5 5) ∧
    (path_model "root/huggingface/p/j" "pytorch" (Timestamp.mk 2022 1 2 3 4 5) ≠
      path_model "root/huggingface/p/j" "pytorch" (Timestamp.mk 2022 1 2 3 5 5) ∧
     path_model "root/huggingface/p/j" "pytorch" (Timestamp.mk 2022 1 2 3 4 5) <
      path_model "root/huggingface/p/j" "pytorch" (Timestamp.mk 2022 1 2 3 5 5)) :=
  ⟨by decide, by decide, by decide,
   model_path_unique_ordered "root/huggingface/p/j" "pytorch"
     (Timestamp.mk 2022 1 2 3 4 5) (Timestamp.mk 2022 1 2 3 5 5)
     (by decide) (by decide) (by decide)⟩

/-- C9 counterexample: two runs started in the same minute (seconds 5 and 6
of 2022-01-02 03:04) do NOT collide on the same directory: the actual
timestamp segment is second-granular ("%Y-%m-%d %H:%M:%S" gives
"2022-01-02 03:04:05"), not the claimed minute-granularity
`YYYY-MM-DD_HH:MM` rendering, so the two paths differ. -/
theorem model_path_minute_collision_counterexample :
    timestampString (Timestamp.mk 2022 1 2 3 4 5) = "2022-01-02 03:04:05" ∧
    (Timestamp.mk 2022 1 2 3 4 5).minute = (Timestamp.mk 2022 1 2 3 4 6).minute ∧
    (Timestamp.mk 2022 1 2 3 4 5).hour = (Timestamp.mk 2022 1 2 3 4 6).hour ∧
    path_model (build_model_repository_path "root" "p" "j" "huggingface") "pytorch"
        (Timestamp.mk 2022 1 2 3 4 5) ≠
      path_model (build_model_repository_path "root" "p" "j" "huggingface") "pytorch"
        (Timestamp.mk 2022 1 2 3 4 6) := by
  refine ⟨by decide, rfl, rfl, by decide⟩

/-- C9 amended: every persisted model artifact directory produced by an
adapter has the layout
`<root>/<model_repository>/<project_id>/<job_name>/model/<framework>/<timestamp>`
where the timestamp segment has second granularity in the fixed 19-character
format `YYYY-MM-DD HH:MM:SS`, so two runs started in the same second collide
on the same directory — and only those: for valid timestamps the paths
coincide exactly when the timestamps coincide to the second. -/
theorem model_path_layout_second_granularity :
    ∀ (root project_id job_name model_repository framework : String)
      (t₁ t₂ : Timestamp),
      (path_model (build_model_repository_path root project_id job_name
          model_repository) framework t₁ =
        root ++ "/" ++ model_repository ++ "/" ++ project_id ++ "/" ++ job_name ++
          "/model/" ++ framework ++ "/" ++ timestampString t₁) ∧
      (strftimeChars t₁).length = 19 ∧
      (t₁.Valid → t₂.Valid →
        (path_model (build_model_repository_path root project_id job_name
            model_repository) framework t₁ =
          path_model (build_model_repository_path root project_id job_name
            model_repository) framework t₂ ↔ t₁ = t₂)) := by
  intro root project_id job_name model_repository framework t₁ t₂
  refine ⟨?_, ?_, ?_⟩
  · simp [path_model, build_model_repository_path, String.append_assoc]
  · simp [strftimeChars, padNat_length]
  · intro hv₁ hv₂
    constructor
    · intro hpe
      have h1 := congrArg String.data hpe
      simp only [path_model, timestampString, String.data_append,
        List.append_assoc] at h1
      have h2 := List.append_cancel_left h1
      have h3 := List.append_cancel_left h2
      have h4 := List.append_cancel_left h3
      have h5 := List.append_cancel_left h4
      exact strftimeChars_inj t₁ t₂ hv₁ hv₂ h5
    · intro he
      rw [he]

/-- Witness for C9's amended theorem: the collision criterion applied at a
concrete timestamp. -/
theorem model_path_layout_second_granularity_witness :
    (Timestamp.mk 2022 1 2 3 4 5).Valid ∧
    (path_model (build_model_repository_path "r" "p" "j" "huggingface") "pytorch"
        (Timestamp.mk 2022 1 2 3 4 5) =
      path_model (build_model_repository_path "r" "p" "j" "huggingface") "pytorch"
        (Timestamp.mk 2022 1 2 3 4 5) ↔
      Timestamp.mk 2022 1 2 3 4 5 = Timestamp.mk 2022 1 2 3 4 5) :=
  ⟨by decide,
   (model_path_layout_second_granularity "r" "p" "j" "huggingface" "pytorch"
      (Timestamp.mk 2022 1 2 3 4 5) (Timestamp.mk 2022 1 2 3 4 5)).2.2
     (by decide) (by decide)⟩

end AutoML
